import Mathlib

/-!
Verification of the realtime-core messaging kernel.

All definitions in this file are shallow embeddings of the TypeScript
source of the repository: JS `Map`s become association lists (keys are
unique by construction of the operations), JS `Set`s become duplicate-free
lists, bytes become `Nat` values below 256 and machine arithmetic is `Nat`
arithmetic with explicit `% 2^w`.

Layout: all definitions first, then all theorems.
-/

namespace Realtime

/-! ## Definitions -/

/-! ### Association-list / set primitives (model of JS `Map` and `Set`) -/

/-- Lookup in an association list: model of `Map.get`. -/
def alGet {β : Type} (m : List (String × β)) (k : String) : Option β :=
  match m with
  | [] => none
  | (k', v) :: rest => if k' = k then some v else alGet rest k

/-- Insert-or-replace in an association list: model of `Map.set`. -/
def alSet {β : Type} (m : List (String × β)) (k : String) (v : β) :
    List (String × β) :=
  match m with
  | [] => [(k, v)]
  | (k', v') :: rest => if k' = k then (k, v) :: rest else (k', v') :: alSet rest k v

/-- Remove a key from an association list: model of `Map.delete`. -/
def alDel {β : Type} (m : List (String × β)) (k : String) : List (String × β) :=
  match m with
  | [] => []
  | (k', v) :: rest => if k' = k then alDel rest k else (k', v) :: alDel rest k

/-- Add to a set: model of `Set.add` (no duplicates). -/
def setAdd (s : List String) (x : String) : List String :=
  if x ∈ s then s else s ++ [x]

/-- Remove from a set: model of `Set.delete`. -/
def setDel (s : List String) (x : String) : List String :=
  s.filter (fun y => y ≠ x)

/-- Model of JS `String.prototype.toLowerCase` on the ASCII strings the
source manipulates: lowercase every character. Extensionally equal to
`String.toLower` (see `toLowerStr_eq_toLower`) but kernel-computable. -/
def toLowerStr (s : String) : String := ⟨s.data.map Char.toLower⟩

/-- Default-`[]` lookup, the shape in which the source reads its maps. -/
def alGetD (m : List (String × List String)) (k : String) : List String :=
  (alGet m k).getD []

/-! ### RoomManager (src/packages/realtime-core/src/core/roomManager.ts)

State of the two JS `Map<string, Set<string>>` fields `rooms` (room → client
ids) and `memberships` (client id → rooms). -/

structure RoomState where
  rooms : List (String × List String)
  memberships : List (String × List String)
deriving DecidableEq, Repr

namespace RoomManager

/-- The freshly-constructed `RoomManager`. -/
def empty : RoomState := ⟨[], []⟩

/-- `RoomManager.join`: no-op on the empty room string (JS falsiness of
`!room`); otherwise lowercases the room and inserts into both maps. -/
def join (st : RoomState) (room clientId : String) : RoomState :=
  if room = "" then st
  else
    let lower := (toLowerStr room)
    let bucket := alGetD st.rooms lower
    let personal := alGetD st.memberships clientId
    { rooms := alSet st.rooms lower (setAdd bucket clientId),
      memberships := alSet st.memberships clientId (setAdd personal lower) }

/-- `RoomManager.leave`: removes from both maps, dropping a bucket or a
membership set entirely when it becomes empty. -/
def leave (st : RoomState) (room clientId : String) : RoomState :=
  let lower := (toLowerStr room)
  let rooms' :=
    match alGet st.rooms lower with
    | none => st.rooms
    | some bucket =>
      let b := setDel bucket clientId
      if b = [] then alDel st.rooms lower else alSet st.rooms lower b
  let memberships' :=
    match alGet st.memberships clientId with
    | none => st.memberships
    | some personal =>
      let p := setDel personal lower
      if p = [] then alDel st.memberships clientId else alSet st.memberships clientId p
  { rooms := rooms', memberships := memberships' }

/-- `RoomManager.leaveAll`: leaves every room in the client's membership set.
The JS source iterates the live `Set` while `leave` deletes the element just
visited, which visits exactly the elements of the snapshot; this is the
snapshot fold. -/
def leaveAll (st : RoomState) (clientId : String) : RoomState :=
  match alGet st.memberships clientId with
  | none => st
  | some personal => personal.foldl (fun s r => leave s r clientId) st

/-- `RoomManager.list`: members of a room (name lowercased first). -/
def list (st : RoomState) (room : String) : List String :=
  alGetD st.rooms (toLowerStr room)

/-- `RoomManager.roomsFor`: rooms of a client. -/
def roomsFor (st : RoomState) (clientId : String) : List String :=
  alGetD st.memberships clientId

end RoomManager

/-- State-machine view: the RoomManager operations a caller can perform. -/
inductive RoomOp
  | join (room clientId : String)
  | leave (room clientId : String)
  | leaveAll (clientId : String)
deriving DecidableEq, Repr

def applyRoomOp (st : RoomState) : RoomOp → RoomState
  | .join r c => RoomManager.join st r c
  | .leave r c => RoomManager.leave st r c
  | .leaveAll c => RoomManager.leaveAll st c

/-- The state after a finite sequence of `join`/`leave`/`leaveAll`
operations, starting from the freshly constructed manager. -/
def runRoomOps (ops : List RoomOp) : RoomState :=
  ops.foldl applyRoomOp RoomManager.empty

/-- The two RoomManager maps are mutually inverse. -/
def MutualInv (st : RoomState) : Prop :=
  ∀ r c, c ∈ alGetD st.rooms r ↔ r ∈ alGetD st.memberships c

/-- No room bucket and no membership set stored in the maps is empty. -/
def NoEmpty (st : RoomState) : Prop :=
  (∀ p ∈ st.rooms, p.2 ≠ []) ∧ (∀ p ∈ st.memberships, p.2 ≠ [])

/-- All membership-set entries (as read back by lookups) are
lowercase-canonical strings. -/
def LowerClosed (st : RoomState) : Prop :=
  ∀ c r, r ∈ alGetD st.memberships c → toLowerStr r = r

/-! ### RealtimeHub (src/packages/realtime-core/src/core/realtimeHub.ts)

Key-level state of the Hub: the id set of the `clients` registry `Map`, the
RoomManager, the id set of the PresenceStore `Map`, and the emitted events.
(The per-client record values — transport tag, metadata, send capability —
play no role in the registration claims and are not tracked.) -/

inductive HubEvent
  | connected (clientId : String)
  | disconnected (clientId : String) (reason : Option String)
deriving DecidableEq, Repr

structure HubState where
  clients : List String
  rooms : RoomState
  presence : List String
  events : List HubEvent
deriving DecidableEq, Repr

namespace RealtimeHub

/-- A freshly constructed `RealtimeHub`. -/
def empty : HubState := ⟨[], RoomManager.empty, [], []⟩

/-- `RealtimeHub.registerClient`: insert into the registry, take the
presence snapshot, emit `client:connected`. -/
def registerClient (st : HubState) (clientId : String) : HubState :=
  { st with
    clients := setAdd st.clients clientId,
    presence := setAdd st.presence clientId,
    events := st.events ++ [HubEvent.connected clientId] }

/-- `RealtimeHub.unregisterClient`: no-op for an unknown id; otherwise
`rooms.leaveAll`, delete from registry and presence, emit
`client:disconnected`. -/
def unregisterClient (st : HubState) (clientId : String) (reason : Option String) : HubState :=
  if clientId ∈ st.clients then
    { clients := setDel st.clients clientId,
      rooms := RoomManager.leaveAll st.rooms clientId,
      presence := setDel st.presence clientId,
      events := st.events ++ [HubEvent.disconnected clientId reason] }
  else st

/-- `RealtimeHub.joinRoom` (the rooms-map part; the refresh of the client
record's `rooms` field and `presence.syncRooms` update values not tracked
at key level). -/
def joinRoom (st : HubState) (room clientId : String) : HubState :=
  { st with rooms := RoomManager.join st.rooms room clientId }

/-- `RealtimeHub.leaveRoom` (rooms-map part, as for `joinRoom`). -/
def leaveRoom (st : HubState) (room clientId : String) : HubState :=
  { st with rooms := RoomManager.leave st.rooms room clientId }

end RealtimeHub

/-- Hub operations reachable through the public surface. -/
inductive HubOp
  | register (clientId : String)
  | unregister (clientId : String) (reason : Option String)
  | joinRoom (room clientId : String)
  | leaveRoom (room clientId : String)
deriving DecidableEq, Repr

def applyHubOp (st : HubState) : HubOp → HubState
  | .register c => RealtimeHub.registerClient st c
  | .unregister c reason => RealtimeHub.unregisterClient st c reason
  | .joinRoom r c => RealtimeHub.joinRoom st r c
  | .leaveRoom r c => RealtimeHub.leaveRoom st r c

/-- The Hub state after a finite sequence of operations on a fresh Hub. -/
def runHubOps (ops : List HubOp) : HubState :=
  ops.foldl applyHubOp RealtimeHub.empty

/-! ### Kernel dispatch (src/packages/realtime-core/src/core/realtimeKernel.ts)

The dispatch loop is modelled by the sequence of `hub.send(target, message)`
calls it performs. User handlers are arbitrary code; one awaited handler
invocation is abstracted by the sends it performs through the toolkit before
returning or throwing, plus the message of the thrown error, if any. -/

/-- A dispatched message: the routing-relevant fields (`type`, `ack`).
`ack = none` models an absent field. -/
structure KMessage where
  mtype : String
  ack : Option String
deriving DecidableEq, Repr

/-- JS truthiness of `message.ack` (an empty-string token is falsy). -/
def ackTruthy : Option String → Bool
  | some t => t ≠ ""
  | none => false

/-- Payload of a message sent through `hub.send` during dispatch. Payloads
built by handlers are opaque (`userP`). -/
inductive SentPayload
  | ackP (token : String)
  | errP (message details : String)
  | userP (tag : Nat)
deriving DecidableEq, Repr

/-- One `hub.send(target, message)` call. -/
structure Sent where
  target : String
  mtype : String
  payload : SentPayload
deriving DecidableEq, Repr

/-- Observable behaviour of one awaited handler: its toolkit sends in order,
then optionally a thrown error's message. -/
structure HandlerRun where
  sends : List Sent
  thrown : Option String
deriving DecidableEq, Repr

/-- The `system:ack` reply: `{type: "system:ack", payload: {ack: token}}`. -/
def ackSend (clientId token : String) : Sent :=
  ⟨clientId, "system:ack", SentPayload.ackP token⟩

/-- The handler-failure reply:
`{type: "system:error", payload: {message: "Internal handler error", details}}`. -/
def errorSend (clientId details : String) : Sent :=
  ⟨clientId, "system:error", SentPayload.errP "Internal handler error" details⟩

/-- The `if (message.ack) hub.send(client.id, system:ack)` block. -/
def ackBlock (message : KMessage) (clientId : String) : List Sent :=
  match message.ack with
  | some t => if t ≠ "" then [ackSend clientId t] else []
  | none => []

/-- `RealtimeKernel.dispatch` as its sequence of `hub.send` calls:
no handlers → debug log and the ack block; with handlers, abort silently if
the client's snapshot is gone (`ctxExists = false`); otherwise run every
handler in order — a throwing handler's error is caught, logged, and answered
with a `system:error` to the originator — and finish with the ack block. -/
def dispatch (message : KMessage) (clientId : String) (handlers : List HandlerRun)
    (ctxExists : Bool) : List Sent :=
  if handlers = [] then
    ackBlock message clientId
  else if ctxExists = false then []
  else
    (handlers.flatMap fun h =>
      h.sends ++ (match h.thrown with
        | some d => [errorSend clientId d]
        | none => [])) ++
    ackBlock message clientId

/-! ### PeerMeshTransport (src/packages/realtime-core/src/transports/p2p.ts)

Key-level state of the transport: the `connections` Map (nodeId →
connection, connections named by numbers), the `connectionAddresses` Map,
the set of client ids registered with the Hub, and the connections whose
`close()` has run. Dial scheduling and reconnect timers are timing and are
not modelled. -/

structure MeshState where
  connections : List (String × Nat)
  connectionAddresses : List (String × String)
  hubClients : List String
  closedConns : List Nat
deriving DecidableEq, Repr

namespace PeerMeshTransport

/-- A freshly started `PeerMeshTransport`. -/
def empty : MeshState := ⟨[], [], [], []⟩

/-- `handlePeerClose(remoteId?, addressKey?)`: for a known remote id, delete
the `connections` and `connectionAddresses` entries keyed by that node id
and unregister the Hub client `mesh:<remoteId>` (a no-op on the Hub side
when that client is not registered). -/
def handlePeerClose (st : MeshState) (remoteId : Option String) : MeshState :=
  match remoteId with
  | some n =>
    { st with
      connections := alDel st.connections n,
      connectionAddresses := alDel st.connectionAddresses n,
      hubClients := setDel st.hubClients ("mesh:" ++ n) }
  | none => st

/-- The registration body of `registerPeer`: store the connection under the
remote node id, remember its address key, register the Hub client
`mesh:<remoteId>`. -/
def storePeer (st : MeshState) (remoteId : String) (conn : Nat)
    (addr : Option String) : MeshState :=
  { st with
    connections := alSet st.connections remoteId conn,
    connectionAddresses :=
      match addr with
      | some a => alSet st.connectionAddresses remoteId a
      | none => st.connectionAddresses,
    hubClients := setAdd st.hubClients ("mesh:" ++ remoteId) }

/-- `registerPeer(remoteId, connection, addressKey?)` — the `onReady`
callback of a connection whose hello exchange just completed. When another
connection for the same node id exists, the new connection is closed:
`MeshConnection.close` marks it closed, destroys the socket and invokes the
transport's `onClose`, i.e. `handlePeerClose`, with the connection's
`remoteId` — which is the same node id. Otherwise the connection is stored
and the Hub client is registered. -/
def registerPeer (st : MeshState) (remoteId : String) (conn : Nat)
    (addr : Option String) : MeshState :=
  match alGet st.connections remoteId with
  | some existing =>
    if existing ≠ conn then
      handlePeerClose { st with closedConns := conn :: st.closedConns } (some remoteId)
    else storePeer st remoteId conn addr
  | none => storePeer st remoteId conn addr

end PeerMeshTransport

/-! ### WebRTCSignalingBridge (src/packages/realtime-core/src/transports/webrtc.ts) -/

/-- A validated signal payload, the output of `normalizePayload`:
`description` (possibly arriving under the alias `offer`), `candidate` and
`metadata` are opaque values tracked only for identity. -/
structure SignalPayload where
  target : Option String
  room : Option String
  description : Option Nat
  candidate : Option Nat
  metadata : Option Nat
deriving DecidableEq, Repr

/-- The forwarded envelope
`{type: channel, payload: {from, room, target, description, candidate, metadata}}`. -/
structure SignalEnvelope where
  mtype : String
  fromId : String
  room : Option String
  target : Option String
  description : Option Nat
  candidate : Option Nat
  metadata : Option Nat
deriving DecidableEq, Repr

/-- The toolkit call `WebRTCSignalingBridge.forward` ends in. -/
inductive RouteAction
  | unicast (targetId : String) (envelope : SignalEnvelope)
  | roomBroadcast (room : String) (envelope : SignalEnvelope) (except : List String)
  | errorReply (mtype : String) (reason : String)
deriving DecidableEq, Repr

namespace WebRTCSignalingBridge

/-- The envelope built at the top of `forward`. -/
def mkEnvelope (payload : SignalPayload) (senderId channel : String) : SignalEnvelope :=
  ⟨channel, senderId, payload.room, payload.target,
    payload.description, payload.candidate, payload.metadata⟩

/-- JS truthiness of an optional string field as read by
`if (payload.target)` / `if (payload.room)`: an absent field and the empty
string (which `normalizePayload` passes through) are both falsy. -/
def strTruthy : Option String → Bool
  | some t => t ≠ ""
  | none => false

/-- `WebRTCSignalingBridge.forward`: `if (payload.target)` — truthy target →
unicast via `toolkit.send`; otherwise `if (payload.room)` — truthy room →
`toolkit.rooms.broadcast` with `exceptSelf: true`, the toolkit resolving the
exclusion set to exactly the originator; otherwise `toolkit.reply` with
`<ns>:error` and reason `TARGET_OR_ROOM_REQUIRED`. -/
def forward (payload : SignalPayload) (senderId channel ns : String) : RouteAction :=
  let envelope := mkEnvelope payload senderId channel
  if strTruthy payload.target then
    RouteAction.unicast (payload.target.getD "") envelope
  else if strTruthy payload.room then
    RouteAction.roomBroadcast (payload.room.getD "") envelope [senderId]
  else
    RouteAction.errorReply (ns ++ ":error") "TARGET_OR_ROOM_REQUIRED"

end WebRTCSignalingBridge

/-- `hub.broadcast(message, {room, except})`: the delivery targets are the
members of the lowercased room minus the exclusion set (the source computes
`targetRoom = options.room?.toLowerCase()` and filters `except`). -/
def hubBroadcastTargets (st : RoomState) (room : String) (except : List String) : List String :=
  (RoomManager.list st (toLowerStr room)).filter (fun id => id ∉ except)

/-! ### WebSocket frames (src/packages/realtime-core/src/transports/base.ts)

Buffers are byte lists (`Nat` values below 256 where the source writes
bytes). Bit operations of the source are rendered arithmetically: `x & 0x0f`
is `x % 16`, `x & 0x7f` is `x % 128`, `x & 0x80` tested on a byte is
`128 ≤ x`, and `0x80 | (opcode & 0x0f)` is `128 + opcode % 16` (disjoint
bits). -/

structure Frame where
  opcode : Nat
  payload : List Nat
  length : Nat
  bytes : Nat
deriving DecidableEq, Repr

/-- Big-endian bytes of a 64-bit value (`writeBigUInt64BE`). -/
def be8 (n : Nat) : List Nat :=
  [n / 2 ^ 56 % 256, n / 2 ^ 48 % 256, n / 2 ^ 40 % 256, n / 2 ^ 32 % 256,
   n / 2 ^ 24 % 256, n / 2 ^ 16 % 256, n / 2 ^ 8 % 256, n % 256]

/-- Read a 64-bit big-endian value (`readBigUInt64BE` followed by `Number`;
exact below `2 ^ 53`). -/
def readBE8 (b0 b1 b2 b3 b4 b5 b6 b7 : Nat) : Nat :=
  ((((((b0 * 256 + b1) * 256 + b2) * 256 + b3) * 256 + b4) * 256 + b5) * 256 + b6) * 256 + b7

/-- `encodeFrame(payload, opcode = 0x1)`: FIN set, unmasked, single
fragment, with 7-bit, 16-bit or 64-bit length encoding by payload size. -/
def encodeFrame (payload : List Nat) (opcode : Nat := 1) : List Nat :=
  let n := payload.length
  if n < 126 then
    (128 + opcode % 16) :: n :: payload
  else if n < 65536 then
    (128 + opcode % 16) :: 126 :: (n / 256 % 256) :: (n % 256) :: payload
  else
    (128 + opcode % 16) :: 127 :: (be8 n ++ payload)

/-- The tail of `decodeFrame` after the length field: completeness check,
mask extraction, payload extraction and unmasking, and the consumed byte
count. -/
def decodeRest (buffer : List Nat) (offset opcode payloadLength : Nat)
    (masked : Bool) : Option Frame :=
  let maskLength := if masked then 4 else 0
  if buffer.length < offset + maskLength + payloadLength then none
  else
    let mask := (buffer.drop offset).take 4
    let payload := (buffer.drop (offset + maskLength)).take payloadLength
    let unmasked :=
      if masked then payload.mapIdx (fun i b => Nat.xor b (mask.getD (i % 4) 0))
      else payload
    some ⟨opcode, unmasked, payloadLength, offset + maskLength + payloadLength⟩

/-- `decodeFrame(buffer)`: `none` models the `null` returned while the
buffer does not yet hold a complete frame. -/
def decodeFrame (buffer : List Nat) : Option Frame :=
  if buffer.length < 2 then none
  else
    let firstByte := buffer.getD 0 0
    let opcode := firstByte % 16
    let secondByte := buffer.getD 1 0
    let masked := decide (128 ≤ secondByte)
    let payloadLength := secondByte % 128
    if payloadLength = 126 then
      if buffer.length < 4 then none
      else decodeRest buffer 4 opcode (buffer.getD 2 0 * 256 + buffer.getD 3 0) masked
    else if payloadLength = 127 then
      if buffer.length < 10 then none
      else decodeRest buffer 10 opcode
        (readBE8 (buffer.getD 2 0) (buffer.getD 3 0) (buffer.getD 4 0) (buffer.getD 5 0)
          (buffer.getD 6 0) (buffer.getD 7 0) (buffer.getD 8 0) (buffer.getD 9 0)) masked
    else decodeRest buffer 2 opcode payloadLength masked

/-! ### WebSocket upgrade handshake (src/packages/realtime-core/src/transports/base.ts)

`handleUpgrade` computes `Sec-WebSocket-Accept` with node:crypto, i.e.
`createHash('sha1').update(key + WS_GUID).digest('base64')`. SHA-1
(FIPS 180-4) and standard Base64 are modelled here byte-exactly (they are
library functions, not repository code; the RFC 6455 test vector below
checks the model). ASCII strings become bytes by their char codes. -/

def WS_GUID : String := "258EAFA5-E914-47DA-95CA-C5AB0DC85B11"

def strBytes (s : String) : List Nat := s.data.map Char.toNat

def rotl32 (k x : Nat) : Nat :=
  (x * 2 ^ k + x / 2 ^ (32 - k)) % 2 ^ 32

def sha1Pad (msg : List Nat) : List Nat :=
  msg ++ [128] ++ List.replicate ((120 - (msg.length + 1) % 64) % 64) 0 ++ be8 (8 * msg.length)

def words32 : List Nat → List Nat
  | b0 :: b1 :: b2 :: b3 :: rest =>
    (((b0 * 256 + b1) * 256 + b2) * 256 + b3) :: words32 rest
  | _ => []

def sha1Extend (ws : List Nat) : Nat → List Nat
  | 0 => ws
  | k + 1 =>
    let n := ws.length
    sha1Extend (ws ++ [rotl32 1 (Nat.xor (Nat.xor (ws.getD (n - 3) 0) (ws.getD (n - 8) 0))
      (Nat.xor (ws.getD (n - 14) 0) (ws.getD (n - 16) 0)))]) k

def sha1F (i b c d : Nat) : Nat :=
  if i < 20 then Nat.lor (Nat.land b c) (Nat.land (4294967295 - b) d)
  else if i < 40 then Nat.xor (Nat.xor b c) d
  else if i < 60 then Nat.lor (Nat.lor (Nat.land b c) (Nat.land b d)) (Nat.land c d)
  else Nat.xor (Nat.xor b c) d

def sha1K (i : Nat) : Nat :=
  if i < 20 then 1518500249
  else if i < 40 then 1859775393
  else if i < 60 then 2400959708
  else 3395469782

def sha1Round (st : Nat × Nat × Nat × Nat × Nat) (iw : Nat × Nat) :
    Nat × Nat × Nat × Nat × Nat :=
  let (a, b, c, d, e) := st
  let (i, w) := iw
  let temp := (rotl32 5 a + sha1F i b c d + e + sha1K i + w) % 2 ^ 32
  (temp, a, rotl32 30 b, c, d)

def sha1Block (h : Nat × Nat × Nat × Nat × Nat) (block : List Nat) :
    Nat × Nat × Nat × Nat × Nat :=
  let ws := sha1Extend (words32 block) 64
  let (a, b, c, d, e) := ws.enum.foldl sha1Round h
  ((h.1 + a) % 2 ^ 32, (h.2.1 + b) % 2 ^ 32, (h.2.2.1 + c) % 2 ^ 32,
   (h.2.2.2.1 + d) % 2 ^ 32, (h.2.2.2.2 + e) % 2 ^ 32)

def sha1Init : Nat × Nat × Nat × Nat × Nat :=
  (1732584193, 4023233417, 2562383102, 271733878, 3285377520)

def sha1Chunks : Nat → (Nat × Nat × Nat × Nat × Nat) → List Nat → Nat × Nat × Nat × Nat × Nat
  | 0, h, _ => h
  | _, h, [] => h
  | fuel + 1, h, l => sha1Chunks fuel (sha1Block h (l.take 64)) (l.drop 64)

def be4 (n : Nat) : List Nat :=
  [n / 2 ^ 24 % 256, n / 2 ^ 16 % 256, n / 2 ^ 8 % 256, n % 256]

def sha1 (msg : List Nat) : List Nat :=
  let padded := sha1Pad msg
  let h := sha1Chunks padded.length sha1Init padded
  be4 h.1 ++ be4 h.2.1 ++ be4 h.2.2.1 ++ be4 h.2.2.2.1 ++ be4 h.2.2.2.2

def b64Alphabet : List Char :=
  "ABCDEFGHIJKLMNOPQRSTUVWXYZabcdefghijklmnopqrstuvwxyz0123456789+/".data

def b64Char (n : Nat) : Char := b64Alphabet.getD n 'A'

def base64 : List Nat → List Char
  | b0 :: b1 :: b2 :: rest =>
    b64Char (b0 / 4) :: b64Char (b0 % 4 * 16 + b1 / 16) ::
      b64Char (b1 % 16 * 4 + b2 / 64) :: b64Char (b2 % 64) :: base64 rest
  | [b0, b1] =>
    [b64Char (b0 / 4), b64Char (b0 % 4 * 16 + b1 / 16), b64Char (b1 % 16 * 4), '=']
  | [b0] =>
    [b64Char (b0 / 4), b64Char (b0 % 4 * 16), '=', '=']
  | [] => []

def base64Str (l : List Nat) : String := ⟨base64 l⟩

def wsAccept (key : String) : String :=
  base64Str (sha1 (strBytes (key ++ WS_GUID)))

/-- `Array.prototype.join('\r\n')` as used on the headers array. -/
def joinCRLF : List String → String
  | [] => ""
  | [a] => a
  | a :: rest => a ++ "\r\n" ++ joinCRLF rest

/-- The upgrade response written by `handleUpgrade`: the five-element
headers array joined with CRLF; its final element `"\r\n"` produces the
terminating blank line. -/
def upgradeResponse (key : String) : String :=
  joinCRLF
    ["HTTP/1.1 101 Switching Protocols", "Upgrade: websocket",
     "Connection: Upgrade", "Sec-WebSocket-Accept: " ++ wsAccept key, "\r\n"]

/-! ## Theorems -/

@[simp] theorem alGet_nil {β : Type} (k : String) : alGet ([] : List (String × β)) k = none := rfl

theorem alGet_alSet {β : Type} (m : List (String × β)) (k k' : String) (v : β) :
    alGet (alSet m k v) k' = if k = k' then some v else alGet m k' := by
  induction m with
  | nil =>
    by_cases h : k = k' <;> simp [alSet, alGet, h]
  | cons p rest ih =>
    obtain ⟨a, b⟩ := p
    by_cases h0 : a = k
    · subst h0
      by_cases h1 : a = k' <;> simp [alSet, alGet, h1]
    · by_cases h1 : a = k'
      · subst h1
        have hka : k ≠ a := fun h => h0 h.symm
        simp [alSet, h0, alGet, hka]
      · simp [alSet, h0, alGet, h1, ih]

theorem alGet_alDel {β : Type} (m : List (String × β)) (k k' : String) :
    alGet (alDel m k) k' = if k = k' then none else alGet m k' := by
  induction m with
  | nil => by_cases h : k = k' <;> simp [alDel, alGet, h]
  | cons p rest ih =>
    obtain ⟨a, b⟩ := p
    by_cases h0 : a = k
    · subst h0
      by_cases h1 : a = k'
      · subst h1; simpa [alDel, alGet] using ih
      · simp [alDel, alGet, h1, ih]
    · by_cases h1 : a = k'
      · subst h1
        have hka : k ≠ a := fun h => h0 h.symm
        simp [alDel, h0, alGet, hka]
      · simp [alDel, h0, alGet, h1, ih]

theorem mem_setAdd (s : List String) (x y : String) :
    y ∈ setAdd s x ↔ y ∈ s ∨ y = x := by
  unfold setAdd
  split
  · constructor
    · intro h; exact Or.inl h
    · rintro (h | rfl) <;> assumption
  · simp

theorem mem_setDel (s : List String) (x y : String) :
    y ∈ setDel s x ↔ y ∈ s ∧ y ≠ x := by
  simp [setDel]

theorem setAdd_ne_nil (s : List String) (x : String) : setAdd s x ≠ [] := by
  unfold setAdd; split
  · intro h; subst h; simp_all
  · simp

theorem mem_of_mem_alSet {β : Type} {m : List (String × β)} {k : String} {v : β}
    {p : String × β} (h : p ∈ alSet m k v) : p ∈ m ∨ p = (k, v) := by
  induction m with
  | nil => simp [alSet] at h; simp [h]
  | cons q rest ih =>
    unfold alSet at h
    split at h
    · rcases List.mem_cons.1 h with h1 | h1
      · exact Or.inr h1
      · exact Or.inl (List.mem_cons_of_mem _ h1)
    · rcases List.mem_cons.1 h with h1 | h1
      · exact Or.inl (h1 ▸ List.mem_cons_self _ _)
      · rcases ih h1 with h2 | h2
        · exact Or.inl (List.mem_cons_of_mem _ h2)
        · exact Or.inr h2

theorem mem_of_mem_alDel {β : Type} {m : List (String × β)} {k : String}
    {p : String × β} (h : p ∈ alDel m k) : p ∈ m := by
  induction m with
  | nil => simp [alDel] at h
  | cons q rest ih =>
    unfold alDel at h
    split at h
    · exact List.mem_cons_of_mem _ (ih h)
    · rcases List.mem_cons.1 h with h1 | h1
      · exact h1 ▸ List.mem_cons_self _ _
      · exact List.mem_cons_of_mem _ (ih h1)

theorem alGetD_alSet (m : List (String × List String)) (k k' : String) (v : List String) :
    alGetD (alSet m k v) k' = if k = k' then v else alGetD m k' := by
  unfold alGetD
  rw [alGet_alSet]
  split <;> rfl

theorem alGetD_alDel (m : List (String × List String)) (k k' : String) :
    alGetD (alDel m k) k' = if k = k' then [] else alGetD m k' := by
  unfold alGetD
  rw [alGet_alDel]
  split <;> rfl

theorem alSet_alSet {β : Type} (m : List (String × β)) (k : String) (v w : β) :
    alSet (alSet m k v) k w = alSet m k w := by
  induction m with
  | nil => simp [alSet]
  | cons p rest ih =>
    obtain ⟨a, b⟩ := p
    by_cases h : a = k
    · simp [alSet, h]
    · simp [alSet, h, ih]

theorem setAdd_of_mem {s : List String} {x : String} (h : x ∈ s) : setAdd s x = s := by
  simp [setAdd, h]

/-! ### Lowercasing (model of JS `String.prototype.toLowerCase` on ASCII) -/

theorem char_toNat_ofNat (n : Nat) (h : n.isValidChar) : (Char.ofNat n).toNat = n := by
  simp only [Char.ofNat, h, dite_true, Char.ofNatAux, Char.toNat]
  have hlt : n < 2 ^ 32 := by
    rcases h with h | ⟨_, h2⟩ <;> omega
  simp [UInt32.toNat, BitVec.toNat_ofNatLt]

theorem char_toLower_toLower (c : Char) : c.toLower.toLower = c.toLower := by
  unfold Char.toLower
  by_cases h : c.toNat ≥ 65 ∧ c.toNat ≤ 90
  · have hv : (c.toNat + 32).isValidChar := Or.inl (by omega)
    have ht : (Char.ofNat (c.toNat + 32)).toNat = c.toNat + 32 := char_toNat_ofNat _ hv
    simp only [h, if_true, ht]
    have : ¬((Char.ofNat (c.toNat + 32)).toNat ≥ 65 ∧ (Char.ofNat (c.toNat + 32)).toNat ≤ 90) := by
      rw [ht]; omega
    simp [this]
  · simp [h]

theorem toLowerStr_eq_toLower (s : String) : toLowerStr s = s.toLower := by
  apply String.ext
  simp [toLowerStr, String.toLower, String.map_eq]

theorem toLowerStr_toLowerStr (s : String) : toLowerStr (toLowerStr s) = toLowerStr s := by
  apply String.ext
  show (s.data.map Char.toLower).map Char.toLower = s.data.map Char.toLower
  rw [List.map_map]
  congr 1
  funext c
  exact char_toLower_toLower c

theorem toLowerStr_eq_empty_iff (s : String) : toLowerStr s = "" ↔ s = "" := by
  constructor
  · intro h
    apply String.ext
    have := congrArg String.data h
    simpa [toLowerStr] using this
  · intro h
    subst h
    rfl

namespace RoomManager

/-! Characteristic equations for the two maps under `join` and `leave`. -/

theorem rooms_join (st : RoomState) (room clientId r : String) (h : room ≠ "") :
    alGetD (join st room clientId).rooms r =
      if (toLowerStr room) = r then setAdd (alGetD st.rooms r) clientId
      else alGetD st.rooms r := by
  unfold join
  simp only [h, if_false]
  rw [alGetD_alSet]
  split <;> simp_all

theorem memberships_join (st : RoomState) (room clientId c : String) (h : room ≠ "") :
    alGetD (join st room clientId).memberships c =
      if clientId = c then setAdd (alGetD st.memberships c) (toLowerStr room)
      else alGetD st.memberships c := by
  unfold join
  simp only [h, if_false]
  rw [alGetD_alSet]
  split <;> simp_all

theorem rooms_leave (st : RoomState) (room clientId r : String) :
    alGetD (leave st room clientId).rooms r =
      if (toLowerStr room) = r then setDel (alGetD st.rooms r) clientId
      else alGetD st.rooms r := by
  unfold leave
  simp only
  split
  · rename_i heq
    split
    · rename_i h
      subst h
      unfold alGetD
      simp [heq, setDel]
    · rfl
  · rename_i bucket heq
    split
    · rename_i hb
      rw [alGetD_alDel]
      split
      · rename_i h
        subst h
        unfold alGetD
        simp [heq, hb]
      · rfl
    · rw [alGetD_alSet]
      split
      · rename_i h
        subst h
        unfold alGetD
        simp [heq]
      · rfl

theorem memberships_leave (st : RoomState) (room clientId c : String) :
    alGetD (leave st room clientId).memberships c =
      if clientId = c then setDel (alGetD st.memberships c) (toLowerStr room)
      else alGetD st.memberships c := by
  unfold leave
  simp only
  split
  · rename_i heq
    split
    · rename_i h
      subst h
      unfold alGetD
      simp [heq, setDel]
    · rfl
  · rename_i personal heq
    split
    · rename_i hb
      rw [alGetD_alDel]
      split
      · rename_i h
        subst h
        unfold alGetD
        simp [heq, hb]
      · rfl
    · rw [alGetD_alSet]
      split
      · rename_i h
        subst h
        unfold alGetD
        simp [heq]
      · rfl

end RoomManager

/-! ### Preservation of the mutual-inverse invariant. -/

theorem mutualInv_empty : MutualInv RoomManager.empty := by
  intro r c
  simp [RoomManager.empty, alGetD]

theorem mutualInv_join (st : RoomState) (room clientId : String)
    (h : MutualInv st) : MutualInv (RoomManager.join st room clientId) := by
  by_cases hr : room = ""
  · simpa [RoomManager.join, hr] using h
  · intro r c
    rw [RoomManager.rooms_join st room clientId r hr,
      RoomManager.memberships_join st room clientId c hr]
    by_cases h1 : (toLowerStr room) = r
    · by_cases h2 : clientId = c
      · subst h1; subst h2
        simp [mem_setAdd]
      · subst h1
        have hcc : c ≠ clientId := fun hh => h2 hh.symm
        simp [h2, mem_setAdd, hcc, h (toLowerStr room) c]
    · by_cases h2 : clientId = c
      · subst h2
        have hrr : r ≠ (toLowerStr room) := fun hh => h1 hh.symm
        simp [h1, mem_setAdd, hrr, h r clientId]
      · simp [h1, h2, h r c]

theorem mutualInv_leave (st : RoomState) (room clientId : String)
    (h : MutualInv st) : MutualInv (RoomManager.leave st room clientId) := by
  intro r c
  rw [RoomManager.rooms_leave st room clientId r,
    RoomManager.memberships_leave st room clientId c]
  by_cases h1 : (toLowerStr room) = r
  · by_cases h2 : clientId = c
    · subst h1; subst h2
      simp [mem_setDel]
    · subst h1
      have hcc : c ≠ clientId := fun hh => h2 hh.symm
      simp [h2, mem_setDel, hcc, h (toLowerStr room) c]
  · by_cases h2 : clientId = c
    · subst h2
      have hrr : r ≠ (toLowerStr room) := fun hh => h1 hh.symm
      simp [h1, mem_setDel, hrr, h r clientId]
    · simp [h1, h2, h r c]

theorem mutualInv_foldl_leave (L : List String) (clientId : String) (st : RoomState)
    (h : MutualInv st) :
    MutualInv (L.foldl (fun s r => RoomManager.leave s r clientId) st) := by
  induction L generalizing st with
  | nil => exact h
  | cons a L ih => exact ih _ (mutualInv_leave _ _ _ h)

theorem mutualInv_leaveAll (st : RoomState) (clientId : String)
    (h : MutualInv st) : MutualInv (RoomManager.leaveAll st clientId) := by
  unfold RoomManager.leaveAll
  split
  · exact h
  · exact mutualInv_foldl_leave _ _ _ h

theorem mutualInv_applyRoomOp (st : RoomState) (op : RoomOp) (h : MutualInv st) :
    MutualInv (applyRoomOp st op) := by
  cases op with
  | join r c => exact mutualInv_join st r c h
  | leave r c => exact mutualInv_leave st r c h
  | leaveAll c => exact mutualInv_leaveAll st c h

theorem mutualInv_foldl (ops : List RoomOp) (st : RoomState) (h : MutualInv st) :
    MutualInv (ops.foldl applyRoomOp st) := by
  induction ops generalizing st with
  | nil => exact h
  | cons op ops ih => exact ih _ (mutualInv_applyRoomOp st op h)

theorem mutualInv_runRoomOps (ops : List RoomOp) : MutualInv (runRoomOps ops) :=
  mutualInv_foldl ops RoomManager.empty mutualInv_empty

/-! ### Preservation of the no-empty-sets invariant. -/

theorem noEmpty_empty : NoEmpty RoomManager.empty := by
  constructor <;> intro p hp <;> simp [RoomManager.empty] at hp

theorem noEmpty_join (st : RoomState) (room clientId : String)
    (h : NoEmpty st) : NoEmpty (RoomManager.join st room clientId) := by
  by_cases hr : room = ""
  · simpa [RoomManager.join, hr] using h
  unfold RoomManager.join
  simp only [hr, if_false]
  constructor
  · intro p hp
    rcases mem_of_mem_alSet hp with h1 | h1
    · exact h.1 p h1
    · rw [h1]
      exact setAdd_ne_nil _ _
  · intro p hp
    rcases mem_of_mem_alSet hp with h1 | h1
    · exact h.2 p h1
    · rw [h1]
      exact setAdd_ne_nil _ _

theorem noEmpty_leave (st : RoomState) (room clientId : String)
    (h : NoEmpty st) : NoEmpty (RoomManager.leave st room clientId) := by
  obtain ⟨h1, h2⟩ := h
  unfold RoomManager.leave
  constructor
  · intro p hp
    simp only at hp
    split at hp
    · exact h1 p hp
    · rename_i bucket heq
      split at hp
      · exact h1 p (mem_of_mem_alDel hp)
      · rename_i hb
        rcases mem_of_mem_alSet hp with hm | hm
        · exact h1 p hm
        · rw [hm]
          exact hb
  · intro p hp
    simp only at hp
    split at hp
    · exact h2 p hp
    · rename_i personal heq
      split at hp
      · exact h2 p (mem_of_mem_alDel hp)
      · rename_i hb
        rcases mem_of_mem_alSet hp with hm | hm
        · exact h2 p hm
        · rw [hm]
          exact hb

theorem noEmpty_foldl_leave (L : List String) (clientId : String) (st : RoomState)
    (h : NoEmpty st) :
    NoEmpty (L.foldl (fun s r => RoomManager.leave s r clientId) st) := by
  induction L generalizing st with
  | nil => exact h
  | cons a L ih => exact ih _ (noEmpty_leave _ _ _ h)

theorem noEmpty_leaveAll (st : RoomState) (clientId : String)
    (h : NoEmpty st) : NoEmpty (RoomManager.leaveAll st clientId) := by
  unfold RoomManager.leaveAll
  split
  · exact h
  · exact noEmpty_foldl_leave _ _ _ h

theorem noEmpty_applyRoomOp (st : RoomState) (op : RoomOp) (h : NoEmpty st) :
    NoEmpty (applyRoomOp st op) := by
  cases op with
  | join r c => exact noEmpty_join st r c h
  | leave r c => exact noEmpty_leave st r c h
  | leaveAll c => exact noEmpty_leaveAll st c h

theorem noEmpty_foldl (ops : List RoomOp) (st : RoomState) (h : NoEmpty st) :
    NoEmpty (ops.foldl applyRoomOp st) := by
  induction ops generalizing st with
  | nil => exact h
  | cons op ops ih => exact ih _ (noEmpty_applyRoomOp st op h)

theorem noEmpty_runRoomOps (ops : List RoomOp) : NoEmpty (runRoomOps ops) :=
  noEmpty_foldl ops RoomManager.empty noEmpty_empty

/-! ### Claim theorems about the RoomManager. -/

/-- C4: after every finite sequence of RoomManager `join`, `leave` and
`leaveAll` operations, the two maps are mutually inverse: a client `c` is a
member of `list r` exactly when the lowercased form of `r` is a member of
`roomsFor c`. -/
theorem rooms_memberships_mutually_inverse (ops : List RoomOp) (r c : String) :
    c ∈ RoomManager.list (runRoomOps ops) r ↔
      (toLowerStr r) ∈ RoomManager.roomsFor (runRoomOps ops) c :=
  mutualInv_runRoomOps ops (toLowerStr r) c

/-- C9: after every finite sequence of RoomManager operations (in particular
after any `leave`, also the leaves inside `leaveAll`), no empty room remains
in the registry and no client keeps an entry in the membership map once its
last membership is removed: every stored room bucket and every stored
membership set is non-empty. -/
theorem no_empty_room_after_leave (ops : List RoomOp) :
    (∀ p ∈ (runRoomOps ops).rooms, p.2 ≠ []) ∧
    (∀ p ∈ (runRoomOps ops).memberships, p.2 ≠ []) :=
  noEmpty_runRoomOps ops

/-- Witness for C9 at a concrete operation sequence. -/
theorem no_empty_room_after_leave_witness :
    (("lobby", ["c1"]) : String × List String).2 ≠ [] :=
  (no_empty_room_after_leave
      [RoomOp.join "Lobby" "c1", RoomOp.join "lobby" "c2",
       RoomOp.leave "LOBBY" "c2"]).1
    ("lobby", ["c1"]) (by decide)

/-- C10: `RoomManager.join` is idempotent and case-canonical: joining the
same room twice leaves exactly the state of joining once, and joining `r`
gives the same state as joining `lowercase r`. -/
theorem join_idempotent_and_case_canonical (st : RoomState) (room clientId : String) :
    RoomManager.join (RoomManager.join st room clientId) room clientId =
      RoomManager.join st room clientId ∧
    RoomManager.join st room clientId = RoomManager.join st (toLowerStr room) clientId := by
  constructor
  · by_cases hr : room = ""
    · simp [RoomManager.join, hr]
    · unfold RoomManager.join
      simp only [hr, if_false]
      simp only [alGetD_alSet, if_pos]
      congr 1
      · rw [setAdd_of_mem ((mem_setAdd _ _ _).2 (Or.inr rfl)), alSet_alSet]
      · rw [setAdd_of_mem ((mem_setAdd _ _ _).2 (Or.inr rfl)), alSet_alSet]
  · by_cases hr : room = ""
    · subst hr
      rfl
    · have h2 : (toLowerStr room) ≠ "" := fun hh => hr ((toLowerStr_eq_empty_iff room).1 hh)
      unfold RoomManager.join
      simp only [hr, h2, if_false, toLowerStr_toLowerStr]

/-! ### Lowercase-closure of membership sets and the effect of `leaveAll`. -/

theorem lowerClosed_empty : LowerClosed RoomManager.empty := by
  intro c r h
  simp [RoomManager.empty, alGetD] at h

theorem lowerClosed_join (st : RoomState) (room clientId : String)
    (h : LowerClosed st) : LowerClosed (RoomManager.join st room clientId) := by
  by_cases hr : room = ""
  · simpa [RoomManager.join, hr] using h
  · intro c r hmem
    rw [RoomManager.memberships_join st room clientId c hr] at hmem
    by_cases h2 : clientId = c
    · rw [if_pos h2] at hmem
      rcases (mem_setAdd _ _ _).1 hmem with h3 | h3
      · exact h c r h3
      · rw [h3]
        exact toLowerStr_toLowerStr room
    · rw [if_neg h2] at hmem
      exact h c r hmem

theorem lowerClosed_leave (st : RoomState) (room clientId : String)
    (h : LowerClosed st) : LowerClosed (RoomManager.leave st room clientId) := by
  intro c r hmem
  rw [RoomManager.memberships_leave st room clientId c] at hmem
  by_cases h2 : clientId = c
  · rw [if_pos h2] at hmem
    exact h c r ((mem_setDel _ _ _).1 hmem).1
  · rw [if_neg h2] at hmem
    exact h c r hmem

theorem lowerClosed_foldl_leave (L : List String) (clientId : String) (st : RoomState)
    (h : LowerClosed st) :
    LowerClosed (L.foldl (fun s r => RoomManager.leave s r clientId) st) := by
  induction L generalizing st with
  | nil => exact h
  | cons a L ih => exact ih _ (lowerClosed_leave _ _ _ h)

theorem lowerClosed_leaveAll (st : RoomState) (clientId : String)
    (h : LowerClosed st) : LowerClosed (RoomManager.leaveAll st clientId) := by
  unfold RoomManager.leaveAll
  split
  · exact h
  · exact lowerClosed_foldl_leave _ _ _ h

theorem roomsFor_leave_self (st : RoomState) (room clientId : String) :
    RoomManager.roomsFor (RoomManager.leave st room clientId) clientId =
      setDel (RoomManager.roomsFor st clientId) (toLowerStr room) := by
  have h := RoomManager.memberships_leave st room clientId clientId
  simpa [RoomManager.roomsFor] using h

theorem roomsFor_foldl_leave_sub (L : List String) (clientId : String) (st : RoomState)
    (x : String)
    (hx : x ∈ RoomManager.roomsFor
        (L.foldl (fun s r => RoomManager.leave s r clientId) st) clientId) :
    x ∈ RoomManager.roomsFor st clientId ∧ x ∉ L.map toLowerStr := by
  induction L generalizing st with
  | nil =>
    refine ⟨hx, ?_⟩
    simp
  | cons a L ih =>
    rw [List.foldl_cons] at hx
    have h1 := ih (RoomManager.leave st a clientId) hx
    rw [roomsFor_leave_self] at h1
    rcases h1 with ⟨hmem, hnin⟩
    rcases (mem_setDel _ _ _).1 hmem with ⟨h2, h3⟩
    refine ⟨h2, ?_⟩
    simp only [List.map_cons, List.mem_cons, not_or]
    exact ⟨h3, hnin⟩

theorem roomsFor_leaveAll_self (st : RoomState) (clientId : String)
    (h : ∀ r ∈ RoomManager.roomsFor st clientId, toLowerStr r = r) :
    RoomManager.roomsFor (RoomManager.leaveAll st clientId) clientId = [] := by
  unfold RoomManager.leaveAll
  split
  · rename_i heq
    simp [RoomManager.roomsFor, alGetD, heq]
  · rename_i personal heq
    apply List.eq_nil_iff_forall_not_mem.2
    intro x hx
    obtain ⟨h2, h3⟩ := roomsFor_foldl_leave_sub personal clientId st x hx
    have hxp : x ∈ personal := by
      simpa [RoomManager.roomsFor, alGetD, heq] using h2
    have hfix : toLowerStr x = x := by
      apply h x
      simpa [RoomManager.roomsFor, alGetD, heq] using hxp
    exact h3 (List.mem_map.2 ⟨x, hxp, hfix⟩)

/-! ### Room-map invariants hold in every reachable Hub state. -/

theorem hub_rooms_invariants (ops : List HubOp) :
    MutualInv (runHubOps ops).rooms ∧ LowerClosed (runHubOps ops).rooms := by
  suffices h : ∀ (l : List HubOp) (st : HubState),
      MutualInv st.rooms ∧ LowerClosed st.rooms →
      MutualInv (l.foldl applyHubOp st).rooms ∧ LowerClosed (l.foldl applyHubOp st).rooms by
    exact h ops RealtimeHub.empty ⟨mutualInv_empty, lowerClosed_empty⟩
  intro l
  induction l with
  | nil => intro st h; exact h
  | cons op l ih =>
    intro st h
    rw [List.foldl_cons]
    apply ih
    obtain ⟨h1, h2⟩ := h
    cases op with
    | register c =>
      exact ⟨h1, h2⟩
    | unregister c reason =>
      show MutualInv (RealtimeHub.unregisterClient st c reason).rooms ∧
        LowerClosed (RealtimeHub.unregisterClient st c reason).rooms
      unfold RealtimeHub.unregisterClient
      split
      · exact ⟨mutualInv_leaveAll _ _ h1, lowerClosed_leaveAll _ _ h2⟩
      · exact ⟨h1, h2⟩
    | joinRoom r c =>
      exact ⟨mutualInv_join _ _ _ h1, lowerClosed_join _ _ _ h2⟩
    | leaveRoom r c =>
      exact ⟨mutualInv_leave _ _ _ h1, lowerClosed_leave _ _ _ h2⟩

/-- C7: in every reachable Hub state, `unregisterClient id reason` is a no-op
when `id` is not in the registry; otherwise it empties the client's room
memberships (no room bucket retains the id and its membership list is empty),
removes the id from the registry and the PresenceStore, and emits exactly one
`client:disconnected` event. -/
theorem unregisterClient_cleanup (ops : List HubOp) (clientId : String)
    (reason : Option String) :
    (clientId ∉ (runHubOps ops).clients →
      RealtimeHub.unregisterClient (runHubOps ops) clientId reason = runHubOps ops) ∧
    (clientId ∈ (runHubOps ops).clients →
      RoomManager.roomsFor
          (RealtimeHub.unregisterClient (runHubOps ops) clientId reason).rooms clientId = [] ∧
      (∀ r, clientId ∉
          RoomManager.list
            (RealtimeHub.unregisterClient (runHubOps ops) clientId reason).rooms r) ∧
      clientId ∉ (RealtimeHub.unregisterClient (runHubOps ops) clientId reason).clients ∧
      clientId ∉ (RealtimeHub.unregisterClient (runHubOps ops) clientId reason).presence ∧
      (RealtimeHub.unregisterClient (runHubOps ops) clientId reason).events =
        (runHubOps ops).events ++ [HubEvent.disconnected clientId reason]) := by
  obtain ⟨hInv, hLC⟩ := hub_rooms_invariants ops
  constructor
  · intro h
    unfold RealtimeHub.unregisterClient
    rw [if_neg h]
  · intro h
    have hempty : RoomManager.roomsFor
        (RoomManager.leaveAll (runHubOps ops).rooms clientId) clientId = [] :=
      roomsFor_leaveAll_self _ _ (fun r hr => hLC clientId r hr)
    simp only [RealtimeHub.unregisterClient, if_pos h]
    refine ⟨hempty, ?_, ?_, ?_, trivial⟩
    · intro r hmem
      unfold RoomManager.list at hmem
      have h0 := (mutualInv_leaveAll (runHubOps ops).rooms clientId hInv
        (toLowerStr r) clientId).1 hmem
      unfold RoomManager.roomsFor at hempty
      rw [hempty] at h0
      simp at h0
    · intro hmem
      exact ((mem_setDel _ _ _).1 hmem).2 rfl
    · intro hmem
      exact ((mem_setDel _ _ _).1 hmem).2 rfl

/-- Witness for C7 at a concrete Hub history. -/
theorem unregisterClient_cleanup_witness :
    RoomManager.roomsFor
        (RealtimeHub.unregisterClient
          (runHubOps [HubOp.register "a", HubOp.joinRoom "Lobby" "a"]) "a" none).rooms "a"
      = [] :=
  ((unregisterClient_cleanup [HubOp.register "a", HubOp.joinRoom "Lobby" "a"] "a" none).2
    (by decide)).1

/-! ### Kernel dispatch: ack protocol and handler-error isolation. -/

theorem filter_ack_handler_body (handlers : List HandlerRun) (clientId : String)
    (hno : ∀ h ∈ handlers, ∀ s ∈ h.sends, s.mtype ≠ "system:ack") :
    (handlers.flatMap fun h =>
        h.sends ++ (match h.thrown with
          | some d => [errorSend clientId d]
          | none => [])).filter (fun s => s.mtype == "system:ack") = [] := by
  apply List.filter_eq_nil_iff.2
  intro s hs
  rcases List.mem_flatMap.1 hs with ⟨h, hh, hmem⟩
  rcases List.mem_append.1 hmem with h1 | h1
  · simpa using hno h hh s h1
  · rcases hthrown : h.thrown with _ | d
    · rw [hthrown] at h1
      simp at h1
    · rw [hthrown] at h1
      simp at h1
      subst h1
      simp [errorSend]

theorem sublist_flatMap_of_mem {α β : Type} (f : α → List β) (l : List α) (a : α)
    (h : a ∈ l) : (f a).Sublist (l.flatMap f) := by
  induction l with
  | nil => simp at h
  | cons b l ih =>
    rcases List.mem_cons.1 h with h1 | h1
    · subst h1
      simp only [List.flatMap_cons]
      exact List.sublist_append_left (f a) (l.flatMap f)
    · refine (ih h1).trans ?_
      simp only [List.flatMap_cons]
      exact List.sublist_append_right (f b) (l.flatMap f)

/-- C1: for a dispatched message carrying a (truthy) `ack` token, when the
originating client's presence snapshot exists and no handler itself forges a
`system:ack` send, the dispatch trace contains exactly one `system:ack` — to
the originating client, carrying the same token — and it is the final send,
after every handler has completed (in the no-handler case the trace is just
that ack); for a message without an `ack` token no `system:ack` is ever
sent. -/
theorem dispatch_ack_exactly_once (message : KMessage) (clientId : String)
    (handlers : List HandlerRun)
    (hno : ∀ h ∈ handlers, ∀ s ∈ h.sends, s.mtype ≠ "system:ack") :
    (∀ t, message.ack = some t → t ≠ "" →
      (dispatch message clientId handlers true).filter
          (fun s => s.mtype == "system:ack") = [ackSend clientId t] ∧
      (dispatch message clientId handlers true).getLast? = some (ackSend clientId t)) ∧
    (ackTruthy message.ack = false →
      (dispatch message clientId handlers true).filter
          (fun s => s.mtype == "system:ack") = []) := by
  constructor
  · intro t hack htr
    have hblock : ackBlock message clientId = [ackSend clientId t] := by
      simp [ackBlock, hack, htr]
    by_cases hh : handlers = []
    · subst hh
      unfold dispatch
      rw [if_pos rfl, hblock]
      constructor
      · simp [ackSend]
      · rfl
    · unfold dispatch
      rw [if_neg hh, if_neg (by simp : ¬(true = false)), hblock]
      constructor
      · rw [List.filter_append, filter_ack_handler_body handlers clientId hno]
        simp [ackSend]
      · exact List.getLast?_concat _
  · intro hfalse
    have hblock : ackBlock message clientId = [] := by
      cases hack : message.ack with
      | none => simp [ackBlock, hack]
      | some t =>
        rw [hack] at hfalse
        simp [ackTruthy] at hfalse
        simp [ackBlock, hack, hfalse]
    by_cases hh : handlers = []
    · subst hh
      unfold dispatch
      rw [if_pos rfl, hblock]
      rfl
    · unfold dispatch
      rw [if_neg hh, if_neg (by simp : ¬(true = false)), hblock, List.append_nil]
      exact filter_ack_handler_body handlers clientId hno

/-- Witness for C1 at one handler and a concrete ack token. -/
theorem dispatch_ack_exactly_once_witness :
    (dispatch ⟨"evt", some "tok1"⟩ "c1"
        [⟨[⟨"c2", "chat", SentPayload.userP 0⟩], none⟩] true).filter
        (fun s => s.mtype == "system:ack") = [ackSend "c1" "tok1"] :=
  ((dispatch_ack_exactly_once ⟨"evt", some "tok1"⟩ "c1"
      [⟨[⟨"c2", "chat", SentPayload.userP 0⟩], none⟩] (by decide)).1
    "tok1" rfl (by decide)).1

/-- C2: a handler that throws during dispatch produces a `system:error` send
to the originating client whose payload is
`{message: "Internal handler error", details: <thrown message>}`, and the
sends of every handler — also those after the failing one — still appear in
the dispatch trace in order (every handler is still invoked); `dispatch` is
a total function of the handler outcomes, so the failure never escapes
dispatch. -/
theorem dispatch_handler_error_isolated (message : KMessage) (clientId : String)
    (handlers : List HandlerRun) (k : Nat) (d : String)
    (hk : k < handlers.length)
    (hthrow : (handlers.get ⟨k, hk⟩).thrown = some d) :
    errorSend clientId d ∈ dispatch message clientId handlers true ∧
    ∀ j (hj : j < handlers.length),
      ((handlers.get ⟨j, hj⟩).sends).Sublist (dispatch message clientId handlers true) := by
  have hne : handlers ≠ [] := by
    intro h
    subst h
    simp at hk
  unfold dispatch
  rw [if_neg hne, if_neg (by simp : ¬(true = false))]
  constructor
  · apply List.mem_append_left
    apply List.mem_flatMap.2
    refine ⟨handlers.get ⟨k, hk⟩, List.get_mem handlers k hk, ?_⟩
    apply List.mem_append_right
    rw [hthrow]
    simp
  · intro j hj
    refine List.Sublist.trans ?_ (List.sublist_append_left _ _)
    refine List.Sublist.trans ?_
      (sublist_flatMap_of_mem _ handlers (handlers.get ⟨j, hj⟩) (List.get_mem handlers j hj))
    exact List.sublist_append_left _ _

/-- Witness for C2: the first handler throws, the second one's send is still
in the trace. -/
theorem dispatch_handler_error_isolated_witness :
    errorSend "c1" "boom" ∈
      dispatch ⟨"evt", none⟩ "c1"
        [⟨[], some "boom"⟩, ⟨[⟨"c2", "chat", SentPayload.userP 0⟩], none⟩] true :=
  (dispatch_handler_error_isolated ⟨"evt", none⟩ "c1"
      [⟨[], some "boom"⟩, ⟨[⟨"c2", "chat", SentPayload.userP 0⟩], none⟩] 0 "boom"
      (by decide) rfl).1

/-! ### PeerMeshTransport: duplicate-connection resolution (C3). -/

/-- C3, behaviour of the code at the failing input: after a connection for
node id `n` is ready (stored, Hub client `mesh:n` registered), a second
connection for the same `n` becoming ready closes the new connection
(`2 ∈ closedConns`) — but the close callback also deletes the stored
connection entry for `n` and unregisters the Hub client `mesh:n`, so the
existing connection's registration does not remain intact. -/
theorem registerPeer_duplicate_drops_existing :
    alGet (PeerMeshTransport.registerPeer
        PeerMeshTransport.empty "n" 1 none).connections "n" = some 1 ∧
    "mesh:n" ∈ (PeerMeshTransport.registerPeer
        PeerMeshTransport.empty "n" 1 none).hubClients ∧
    alGet (PeerMeshTransport.registerPeer
        (PeerMeshTransport.registerPeer PeerMeshTransport.empty "n" 1 none)
        "n" 2 none).connections "n" = none ∧
    "mesh:n" ∉ (PeerMeshTransport.registerPeer
        (PeerMeshTransport.registerPeer PeerMeshTransport.empty "n" 1 none)
        "n" 2 none).hubClients ∧
    2 ∈ (PeerMeshTransport.registerPeer
        (PeerMeshTransport.registerPeer PeerMeshTransport.empty "n" 1 none)
        "n" 2 none).closedConns := by
  decide

/-! ### WebRTCSignalingBridge: envelope and routing (C8). -/

/-- C8: for every validated signal payload on any channel, the envelope's
`payload.from` is the originating client's id, and `forward` routes it as
follows: with a set (JS-truthy, i.e. non-empty — the source tests
`if (payload.target)`) `target`, a unicast of the envelope to that target;
with no truthy target but a set `room`, a broadcast of the envelope to that
room whose exclusion set is exactly the sender — so the sender is never
among the delivery targets; with neither, an error reply `<ns>:error` with
reason `TARGET_OR_ROOM_REQUIRED` to the originator. -/
theorem forward_routes_validated_payloads (payload : SignalPayload)
    (senderId channel ns : String) (rooms : RoomState) :
    (WebRTCSignalingBridge.mkEnvelope payload senderId channel).fromId = senderId ∧
    (∀ t, payload.target = some t → t ≠ "" →
      WebRTCSignalingBridge.forward payload senderId channel ns =
        RouteAction.unicast t (WebRTCSignalingBridge.mkEnvelope payload senderId channel)) ∧
    (∀ r, WebRTCSignalingBridge.strTruthy payload.target = false →
      payload.room = some r → r ≠ "" →
      WebRTCSignalingBridge.forward payload senderId channel ns =
        RouteAction.roomBroadcast r
          (WebRTCSignalingBridge.mkEnvelope payload senderId channel) [senderId] ∧
      senderId ∉ hubBroadcastTargets rooms r [senderId]) ∧
    (WebRTCSignalingBridge.strTruthy payload.target = false →
      WebRTCSignalingBridge.strTruthy payload.room = false →
      WebRTCSignalingBridge.forward payload senderId channel ns =
        RouteAction.errorReply (ns ++ ":error") "TARGET_OR_ROOM_REQUIRED") := by
  refine ⟨rfl, ?_, ?_, ?_⟩
  · intro t ht htr
    unfold WebRTCSignalingBridge.forward
    rw [ht]
    simp [WebRTCSignalingBridge.strTruthy, htr]
  · intro r htf hr hrt
    unfold WebRTCSignalingBridge.forward
    rw [htf, hr]
    constructor
    · simp [WebRTCSignalingBridge.strTruthy, hrt]
    · intro hmem
      unfold hubBroadcastTargets at hmem
      rcases List.mem_filter.1 hmem with ⟨_, hdec⟩
      simp at hdec
  · intro htf hrf
    unfold WebRTCSignalingBridge.forward
    rw [htf, hrf]
    simp

/-- Witness for C8: an offer with a room and an absent target is
room-broadcast with the sender excluded. -/
theorem forward_routes_validated_payloads_witness :
    WebRTCSignalingBridge.forward ⟨none, some "Lobby", some 0, none, none⟩ "alice"
        "webrtc:offer" "webrtc" =
      RouteAction.roomBroadcast "Lobby"
        (WebRTCSignalingBridge.mkEnvelope ⟨none, some "Lobby", some 0, none, none⟩
          "alice" "webrtc:offer") ["alice"] :=
  (((forward_routes_validated_payloads ⟨none, some "Lobby", some 0, none, none⟩ "alice"
      "webrtc:offer" "webrtc" RoomManager.empty).2.2.1) "Lobby" rfl rfl (by decide)).1

/-! ### WebSocket frames: the encode/decode round-trip (C5). -/

/-- C5: decoding the output of `encodeFrame` yields the same opcode (a 4-bit
value) and a byte-identical payload, consuming exactly the encoded byte
count, across all three length encodings (payload length below 126, between
126 and 65535, and at or above 65536; the bound `2 ^ 53` keeps the
`Number(bigint)` conversion of the 64-bit length field exact). -/
theorem decode_encode_roundtrip (payload : List Nat) (opcode : Nat)
    (hop : opcode < 16) (hlen : payload.length < 2 ^ 53) :
    decodeFrame (encodeFrame payload opcode) =
      some ⟨opcode, payload, payload.length, (encodeFrame payload opcode).length⟩ := by
  have hmod : (128 + opcode % 16) % 16 = opcode := by omega
  by_cases h1 : payload.length < 126
  · have henc : encodeFrame payload opcode =
        (128 + opcode % 16) :: payload.length :: payload := by
      unfold encodeFrame
      rw [if_pos h1]
    rw [henc]
    unfold decodeFrame
    rw [if_neg (by simp)]
    simp only [List.getD_cons_zero, List.getD_cons_succ]
    rw [hmod, decide_eq_false (by omega : ¬ 128 ≤ payload.length),
      Nat.mod_eq_of_lt (by omega : payload.length < 128)]
    rw [if_neg (by omega), if_neg (by omega)]
    unfold decodeRest
    simp only [Bool.false_eq_true, if_false]
    rw [if_neg (by simp; omega)]
    simp only [List.drop_succ_cons, List.drop_zero, List.take_length]
    simp
    omega
  · by_cases h2 : payload.length < 65536
    · have henc : encodeFrame payload opcode =
          (128 + opcode % 16) :: 126 :: (payload.length / 256 % 256) ::
            (payload.length % 256) :: payload := by
        unfold encodeFrame
        rw [if_neg h1, if_pos h2]
      rw [henc]
      unfold decodeFrame
      rw [if_neg (by simp)]
      simp only [List.getD_cons_zero, List.getD_cons_succ]
      rw [hmod, decide_eq_false (by omega : ¬ (128:Nat) ≤ 126)]
      simp only [eq_true (show (126:Nat) % 128 = 126 by omega), if_true]
      rw [if_neg (by simp)]
      have hval : payload.length / 256 % 256 * 256 + payload.length % 256 = payload.length := by
        omega
      rw [hval]
      unfold decodeRest
      simp only [Bool.false_eq_true, if_false]
      rw [if_neg (by simp; omega)]
      simp only [List.drop_succ_cons, List.drop_zero, List.take_length]
      simp
      omega
    · have henc : encodeFrame payload opcode =
          (128 + opcode % 16) :: 127 ::
            (payload.length / 2 ^ 56 % 256) :: (payload.length / 2 ^ 48 % 256) ::
            (payload.length / 2 ^ 40 % 256) :: (payload.length / 2 ^ 32 % 256) ::
            (payload.length / 2 ^ 24 % 256) :: (payload.length / 2 ^ 16 % 256) ::
            (payload.length / 2 ^ 8 % 256) :: (payload.length % 256) :: payload := by
        unfold encodeFrame
        rw [if_neg h1, if_neg h2]
        simp [be8]
      rw [henc]
      unfold decodeFrame
      rw [if_neg (by simp)]
      simp only [List.getD_cons_zero, List.getD_cons_succ]
      rw [hmod, decide_eq_false (by omega : ¬ (128:Nat) ≤ 127)]
      rw [if_neg (by omega : ¬ (127:Nat) % 128 = 126)]
      simp only [eq_true (show (127:Nat) % 128 = 127 by omega), if_true]
      rw [if_neg (by simp)]
      have hval : readBE8 (payload.length / 2 ^ 56 % 256) (payload.length / 2 ^ 48 % 256)
          (payload.length / 2 ^ 40 % 256) (payload.length / 2 ^ 32 % 256)
          (payload.length / 2 ^ 24 % 256) (payload.length / 2 ^ 16 % 256)
          (payload.length / 2 ^ 8 % 256) (payload.length % 256) = payload.length := by
        unfold readBE8
        omega
      rw [hval]
      unfold decodeRest
      simp only [Bool.false_eq_true, if_false]
      rw [if_neg (by simp; omega)]
      simp only [List.drop_succ_cons, List.drop_zero, List.take_length]
      simp
      omega


/-- Witness for C5 at a short text frame. -/
theorem decode_encode_roundtrip_witness :
    decodeFrame (encodeFrame [104, 105] 1) =
      some ⟨1, [104, 105], 2, (encodeFrame [104, 105] 1).length⟩ :=
  decode_encode_roundtrip [104, 105] 1 (by decide) (by decide)


/-! ### WebSocket upgrade handshake: accept value and response (C6). -/

set_option maxRecDepth 10000 in
/-- C6: for every non-empty `Sec-WebSocket-Key` header value, `handleUpgrade`
computes `Sec-WebSocket-Accept` as Base64(SHA1(key ‖ GUID)) — on the
RFC 6455 test key `dGhlIHNhbXBsZSBub25jZQ==` this is
`s3pPLMBiTxaQ9kYGzzhZRbK+xOo=` — and writes the response consisting of the
`HTTP/1.1 101 Switching Protocols` status line, the `Upgrade: websocket`,
`Connection: Upgrade` and `Sec-WebSocket-Accept` headers, and a terminating
blank line. -/
theorem handleUpgrade_accept_and_response (key : String) (h : key ≠ "") :
    wsAccept key = base64Str (sha1 (strBytes key ++ strBytes WS_GUID)) ∧
    wsAccept "dGhlIHNhbXBsZSBub25jZQ==" = "s3pPLMBiTxaQ9kYGzzhZRbK+xOo=" ∧
    upgradeResponse key =
      "HTTP/1.1 101 Switching Protocols\r\nUpgrade: websocket\r\nConnection: Upgrade\r\nSec-WebSocket-Accept: "
        ++ wsAccept key ++ "\r\n\r\n" := by
  refine ⟨?_, ?_, ?_⟩
  · unfold wsAccept strBytes
    rw [String.data_append, List.map_append]
  · decide
  · unfold upgradeResponse
    simp only [joinCRLF]
    apply String.ext
    simp only [String.data_append, List.append_assoc]
    simp [List.cons_append]

/-- Witness for C6 at the RFC 6455 test key. -/
theorem handleUpgrade_accept_and_response_witness :
    wsAccept "dGhlIHNhbXBsZSBub25jZQ==" = "s3pPLMBiTxaQ9kYGzzhZRbK+xOo=" :=
  (handleUpgrade_accept_and_response "dGhlIHNhbXBsZSBub25jZQ==" (by decide)).2.1

end Realtime
